import Mathlib

/-!
Verification of the witsy web-search subsystem.

Part 1 embeds the local search controller (the hidden-browser-surface
render-and-scrape pipeline). Its implementation file (`src/main/search.ts`)
is not part of the provided sources — only its unit tests are — so the
controller is modelled from the specification document, with the unit tests
(`tests/unit/search.test.ts`) used to validate the model on concrete data.

Part 2 embeds, directly from `src/plugins/search.ts`, the plugin-level
functions `isEnabled`, `truncateContent` and the result post-processing
loop of `execute`.
-/

/-- A title/URL pair harvested from the search-engine results page. -/
structure SearchCandidate where
  title : String
  url : String
deriving Repr, DecidableEq

/-- A final search result: scraped page title, candidate url, raw HTML content. -/
structure SearchResultItem where
  title : String
  url : String
  content : String
deriving Repr, DecidableEq

/-- Modelled from the spec: `SearchOutcome` is a sum type
`Success{results} | Cancelled | Failed{message}`. -/
inductive SearchOutcome where
  | success (results : List SearchResultItem)
  | cancelled
  | failed (message : String)
deriving Repr, DecidableEq

/-- Modelled from the spec: the cancelled outcome carries a message
equivalent to "Operation cancelled" that callers can pattern-match on
(the unit tests expect exactly this string). -/
def SearchOutcome.message : SearchOutcome → Option String
  | .success _ => none
  | .cancelled => some "Operation cancelled"
  | .failed m => some m

/-- Modelled from the spec: a cancellation token, queryable for "already
signalled". Time is discretised into the checkpoints at which the
controller observes the token: checkpoint 0 is the pre-check at call time,
checkpoint `i + 1` is the check before scraping candidate `i`. `signalAt`
is the first checkpoint at which the token is signalled (`none` = never). -/
structure CancelToken where
  signalAt : Option Nat
deriving Repr, DecidableEq

/-- Modelled from the spec: `isSignalled` query of an optional token at a
given checkpoint. -/
def CancelToken.isSignalled (tok : Option CancelToken) (checkpoint : Nat) : Bool :=
  match tok with
  | none => false
  | some t =>
    match t.signalAt with
    | none => false
    | some k => k ≤ checkpoint

/-- What a candidate page yields when scraped: its document title and the
raw outer HTML of its body. -/
structure PageScrape where
  title : String
  html : String
deriving Repr, DecidableEq

/-- Modelled from the spec: the external world as seen by the controller.
`resultsPage q` is what Phase A (navigate to the results URL built from
query `q`, wait for readiness, run the extraction script) yields: `none`
when loading or extraction fails, otherwise the harvested candidates in
document order. `scrape u` is what Phase B yields for a candidate page
`u`: `none` when navigation, readiness or extraction fails for it. -/
structure SearchEnv where
  resultsPage : String → Option (List SearchCandidate)
  scrape : String → Option PageScrape

/-- Observable resource/network side effects of one `search` call. -/
structure SearchTrace where
  surfacesCreated : Nat
  surfacesDestroyed : Nat
  navigations : Nat
deriving Repr, DecidableEq

/-- Modelled from the spec: step 5 "Remove candidates whose url has already
been seen (first occurrence kept)". `seen` accumulates the urls already kept. -/
def dedupCandidates : List SearchCandidate → List String → List SearchCandidate
  | [], _ => []
  | c :: rest, seen =>
    if c.url ∈ seen then dedupCandidates rest seen
    else c :: dedupCandidates rest (c.url :: seen)

/-- Modelled from the spec: Phase B (steps 6-7). Sequentially, for each
surviving candidate: observe the cancellation token (abort the loop with no
partial results when signalled), navigate to the candidate url, scrape title
and body HTML, skip the candidate on failure. Returns `none` when cancelled,
otherwise the successfully scraped items in order; the second component
counts navigations performed. -/
def scrapeCandidates (env : SearchEnv) (tok : Option CancelToken) :
    List SearchCandidate → Nat → Option (List SearchResultItem) × Nat
  | [], _ => (some [], 0)
  | c :: rest, checkpoint =>
    if CancelToken.isSignalled tok checkpoint then (none, 0)
    else
      match env.scrape c.url with
      | none =>
        ((scrapeCandidates env tok rest (checkpoint + 1)).1,
         (scrapeCandidates env tok rest (checkpoint + 1)).2 + 1)
      | some pg =>
        ((scrapeCandidates env tok rest (checkpoint + 1)).1.map
           (fun items => ⟨pg.title, c.url, pg.html⟩ :: items),
         (scrapeCandidates env tok rest (checkpoint + 1)).2 + 1)

/-- Modelled from the spec: the `search` operation of `LocalSearchController`
(`src/main/search.ts`, absent from the provided sources). Steps: pre-check
cancellation before any surface is acquired; acquire a hidden surface
(released exactly once on every later exit path); Phase A results-page load
and extraction (fatal on failure); de-duplicate by url and cap to
`maxResults`; Phase B per-candidate scrape under the cancellation token;
assemble. Returns the outcome paired with the observable resource trace. -/
def localSearch (env : SearchEnv) (query : String) (maxResults : Nat)
    (tok : Option CancelToken) : SearchOutcome × SearchTrace :=
  if CancelToken.isSignalled tok 0 then
    (.cancelled, ⟨0, 0, 0⟩)
  else
    match env.resultsPage query with
    | none => (.failed "results page load or extraction failed", ⟨1, 1, 1⟩)
    | some cands =>
      match scrapeCandidates env tok ((dedupCandidates cands []).take maxResults) 1 with
      | (none, navs) => (.cancelled, ⟨1, 1, 1 + navs⟩)
      | (some items, navs) => (.success items, ⟨1, 1, 1 + navs⟩)

/-- The body HTML served by every scraped page in the unit tests. -/
def testHtml : String := "<html><body>test</body></html>"

/-- The candidate list served by the results page in the unit tests:
five candidates of which two share the url `url2`. -/
def testCandidates : List SearchCandidate :=
  [⟨"title1", "url1"⟩, ⟨"title2", "url2"⟩, ⟨"title3", "url2"⟩,
   ⟨"title4", "url4"⟩, ⟨"title5", "url5"⟩]

/-- The environment mocked by the unit tests: every results page yields
`testCandidates`; every candidate page scrapes to document title `title`
and body HTML `<html><body>test</body></html>`. -/
def testEnv : SearchEnv where
  resultsPage := fun _ => some testCandidates
  scrape := fun _ => some ⟨"title", testHtml⟩

example :
    (localSearch testEnv "witsy" 3 none).1 =
      .success
        [⟨"title", "url1", "<html><body>test</body></html>"⟩,
         ⟨"title", "url2", "<html><body>test</body></html>"⟩,
         ⟨"title", "url4", "<html><body>test</body></html>"⟩] := by decide

example : (localSearch testEnv "witsy" 3 (some ⟨some 0⟩)).1 = .cancelled := by decide

example : (localSearch testEnv "witsy" 3 (some ⟨some 2⟩)).1 = .cancelled := by decide

example : localSearch testEnv "witsy" 3 none
    = ((localSearch testEnv "witsy" 3 none).1, ⟨1, 1, 4⟩) := by decide

/-- A results-page environment in which scraping the page `url2` fails and
every other page scrapes successfully. -/
def testEnvPartial : SearchEnv where
  resultsPage := fun _ => some testCandidates
  scrape := fun u =>
    if u == "url2" then none else some ⟨"title", testHtml⟩

/-- An environment whose results page loads and extracts successfully but
yields zero candidates. -/
def testEnvEmpty : SearchEnv where
  resultsPage := fun _ => some []
  scrape := fun _ => none

/-- An environment whose results page fails to load or extract. -/
def testEnvNoPage : SearchEnv where
  resultsPage := fun _ => none
  scrape := fun _ => some ⟨"title", testHtml⟩

/-!
Part 2: the search plugin (`src/plugins/search.ts`). The class state used
by the embedded methods is the `config` object; it is passed explicitly.
-/

/-- The plugin-level configuration object, with the fields `isEnabled`,
`execute` and `truncateContent` read from `this.config`. Optional fields
are `Option`; `enabled` is the truthiness of `config.enabled`. -/
structure SearchConfig where
  enabled : Bool
  engine : String
  braveApiKey : Option String
  exaApiKey : Option String
  perplexityApiKey : Option String
  tavilyApiKey : Option String
  contentLength : Option Nat
  maxResults : Option Nat
deriving Repr, DecidableEq

/-- JavaScript `String.prototype.trim`: strips leading and trailing
whitespace characters. -/
def jsTrim (s : String) : String :=
  ⟨((s.data.dropWhile Char.isWhitespace).reverse.dropWhile Char.isWhitespace).reverse⟩

/-- Truthiness of `key?.trim().length > 0` for an optional API key field:
`undefined` keys yield `undefined > 0`, i.e. false. -/
def apiKeyTruthy : Option String → Bool
  | none => false
  | some s => 0 < (jsTrim s).length

/-- `isEnabled` from `src/plugins/search.ts` (lines 41-49): enabled when
`config?.enabled` is truthy and the engine is `local`, or one of the
API-key engines with a key that is non-empty after trimming. `none`
models an absent `this.config` (the `?.` access). -/
def isEnabled (config : Option SearchConfig) : Bool :=
  match config with
  | none => false
  | some c =>
    c.enabled &&
      ((c.engine == "local") ||
       (c.engine == "brave" && apiKeyTruthy c.braveApiKey) ||
       (c.engine == "exa" && apiKeyTruthy c.exaApiKey) ||
       (c.engine == "perplexity" && apiKeyTruthy c.perplexityApiKey) ||
       (c.engine == "tavily" && apiKeyTruthy c.tavilyApiKey))

/-- A result item as handled by `execute`: after `delete result.content`
the `content` property is absent, so `content` is `Option String` here. -/
structure ExecResultItem where
  title : String
  url : String
  content : Option String
deriving Repr, DecidableEq

/-- The `SearchResponse` type of `src/plugins/search.ts`: `query`,
`results` and `error` are all optional. -/
structure ExecResponse where
  query : Option String
  results : Option (List ExecResultItem)
  error : Option String
deriving Repr, DecidableEq

/-- Truthiness of the optional `response.error` string: absent or empty
strings are falsy in JavaScript. -/
def errorTruthy : Option String → Bool
  | none => false
  | some s => s != ""

/-- `truncateContent` from `src/plugins/search.ts` (lines 320-326):
when `config.contentLength` is falsy (absent or 0) the content is returned
unchanged, otherwise `content.slice(0, contentLength)`. -/
def truncateContent (config : SearchConfig) (content : String) : String :=
  match config.contentLength with
  | none => content
  | some n => if n == 0 then content else content.take n

/-- The per-result mutation of the `execute` post-processing loop
(`src/plugins/search.ts` lines 126-132): `titlesOnly` deletes `content`,
otherwise `content` is truncated in place. -/
def processResult (titlesOnly : Bool) (config : SearchConfig)
    (r : ExecResultItem) : ExecResultItem :=
  if titlesOnly then { r with content := none }
  else { r with content := r.content.map (truncateContent config) }

/-- The tail of `execute` from `src/plugins/search.ts` (lines 120-136),
with the engine dispatch abstracted into the `response` argument: when
`response.error` is truthy or `response.results` is absent the response is
returned unchanged, otherwise each result is processed in place. -/
def executePostProcess (titlesOnly : Bool) (config : SearchConfig)
    (response : ExecResponse) : ExecResponse :=
  if errorTruthy response.error || response.results.isNone then response
  else { response with
          results := response.results.map (List.map (processResult titlesOnly config)) }

example :
    executePostProcess true ⟨true, "local", none, none, none, none, some 3, none⟩
      ⟨some "q", some [⟨"t", "u", some "hello"⟩], none⟩
    = ⟨some "q", some [⟨"t", "u", none⟩], none⟩ := by decide

example :
    executePostProcess false ⟨true, "local", none, none, none, none, some 3, none⟩
      ⟨some "q", some [⟨"t", "u", some "hello"⟩], none⟩
    = ⟨some "q", some [⟨"t", "u", some "hel"⟩], none⟩ := by decide

example : isEnabled (some ⟨true, "brave", some "  ", none, none, none, none, none⟩)
    = false := by decide

example : isEnabled (some ⟨true, "brave", some " k ", none, none, none, none, none⟩)
    = true := by decide

/-!
Helper lemmas about the Phase B scrape loop.
-/

/-- A successful (non-cancelled) scrape loop yields at most one item per
input candidate. -/
theorem scrapeCandidates_length_le (env : SearchEnv) (tok : Option CancelToken) :
    ∀ (cands : List SearchCandidate) (cp : Nat) (items : List SearchResultItem),
      (scrapeCandidates env tok cands cp).1 = some items →
      items.length ≤ cands.length := by
  intro cands
  induction cands with
  | nil =>
    intro cp items h
    simp [scrapeCandidates] at h
    simp [← h]
  | cons c rest ih =>
    intro cp items h
    by_cases hsig : CancelToken.isSignalled tok cp = true
    · simp [scrapeCandidates, hsig] at h
    · simp only [scrapeCandidates, hsig, Bool.false_eq_true, if_false, if_neg] at h
      cases hscr : env.scrape c.url with
      | none =>
        rw [hscr] at h
        simp only at h
        have := ih (cp + 1) items h
        simpa using Nat.le_succ_of_le this
      | some pg =>
        rw [hscr] at h
        simp only [Option.map_eq_some'] at h
        obtain ⟨tl, htl, hcons⟩ := h
        have := ih (cp + 1) tl htl
        simp [← hcons]
        omega

/-- The urls of a successful scrape loop's output form a sublist of the
input candidates' urls (failed candidates are the omitted ones). -/
theorem scrapeCandidates_urls_sublist (env : SearchEnv) (tok : Option CancelToken) :
    ∀ (cands : List SearchCandidate) (cp : Nat) (items : List SearchResultItem),
      (scrapeCandidates env tok cands cp).1 = some items →
      (items.map SearchResultItem.url).Sublist (cands.map SearchCandidate.url) := by
  intro cands
  induction cands with
  | nil =>
    intro cp items h
    simp [scrapeCandidates] at h
    simp [← h]
  | cons c rest ih =>
    intro cp items h
    by_cases hsig : CancelToken.isSignalled tok cp = true
    · simp [scrapeCandidates, hsig] at h
    · simp only [scrapeCandidates, hsig, Bool.false_eq_true, if_false, if_neg] at h
      cases hscr : env.scrape c.url with
      | none =>
        rw [hscr] at h
        simp only at h
        exact List.Sublist.cons _ (ih (cp + 1) items h)
      | some pg =>
        rw [hscr] at h
        simp only [Option.map_eq_some'] at h
        obtain ⟨tl, htl, hcons⟩ := h
        rw [← hcons]
        exact List.Sublist.cons₂ _ (ih (cp + 1) tl htl)

/-- Every item of a successful scrape loop's output carries the scraped
page's document title and body HTML for its url. -/
theorem scrapeCandidates_item_scraped (env : SearchEnv) (tok : Option CancelToken) :
    ∀ (cands : List SearchCandidate) (cp : Nat) (items : List SearchResultItem),
      (scrapeCandidates env tok cands cp).1 = some items →
      ∀ r ∈ items, ∃ pg, env.scrape r.url = some pg ∧
        r.title = pg.title ∧ r.content = pg.html := by
  intro cands
  induction cands with
  | nil =>
    intro cp items h
    simp [scrapeCandidates] at h
    subst h
    intro r hr
    simp at hr
  | cons c rest ih =>
    intro cp items h
    by_cases hsig : CancelToken.isSignalled tok cp = true
    · simp [scrapeCandidates, hsig] at h
    · simp only [scrapeCandidates, hsig, Bool.false_eq_true, if_false, if_neg] at h
      cases hscr : env.scrape c.url with
      | none =>
        rw [hscr] at h
        simp only at h
        exact ih (cp + 1) items h
      | some pg =>
        rw [hscr] at h
        simp only [Option.map_eq_some'] at h
        obtain ⟨tl, htl, hcons⟩ := h
        intro r hr
        rw [← hcons] at hr
        cases hr with
        | head => exact ⟨pg, hscr, rfl, rfl⟩
        | tail _ htail => exact ih (cp + 1) tl htl r htail

/-- With a token that never signals, the scrape loop is exactly a
`filterMap` over the candidates: failed candidates are skipped, each
successful one contributes the scraped title/content at its url, and one
navigation happens per candidate. -/
theorem scrapeCandidates_no_cancel (env : SearchEnv) (tok : Option CancelToken)
    (hnc : ∀ cp, CancelToken.isSignalled tok cp = false) :
    ∀ (cands : List SearchCandidate) (cp : Nat),
      scrapeCandidates env tok cands cp =
        (some (cands.filterMap (fun c => (env.scrape c.url).map
          (fun pg => ⟨pg.title, c.url, pg.html⟩))), cands.length) := by
  intro cands
  induction cands with
  | nil => intro cp; simp [scrapeCandidates]
  | cons c rest ih =>
    intro cp
    simp only [scrapeCandidates, hnc cp, Bool.false_eq_true, if_false, if_neg]
    cases hscr : env.scrape c.url with
    | none => simp [ih (cp + 1), List.filterMap_cons, hscr]
    | some pg => simp [ih (cp + 1), List.filterMap_cons, hscr]

/-!
Helper lemmas about de-duplication.
-/

/-- De-duplication keeps a subsequence of the candidates. -/
theorem dedupCandidates_sublist :
    ∀ (cands : List SearchCandidate) (seen : List String),
      (dedupCandidates cands seen).Sublist cands := by
  intro cands
  induction cands with
  | nil => intro seen; simp [dedupCandidates]
  | cons c rest ih =>
    intro seen
    by_cases hc : c.url ∈ seen
    · simp only [dedupCandidates, if_pos hc]
      exact List.Sublist.cons _ (ih seen)
    · simp only [dedupCandidates, if_neg hc]
      exact List.Sublist.cons₂ _ (ih (c.url :: seen))

/-- The urls kept by de-duplication appear in strictly increasing order of
their first occurrence in the candidate list, and none of them is in the
already-seen accumulator. -/
theorem dedupCandidates_urls_ordered :
    ∀ (cands : List SearchCandidate) (seen : List String),
      List.Pairwise (fun u v : String =>
          (cands.map SearchCandidate.url).indexOf u
            < (cands.map SearchCandidate.url).indexOf v)
        ((dedupCandidates cands seen).map SearchCandidate.url)
      ∧ ∀ u ∈ (dedupCandidates cands seen).map SearchCandidate.url, u ∉ seen := by
  intro cands
  induction cands with
  | nil => intro seen; simp [dedupCandidates]
  | cons c rest ih =>
    intro seen
    by_cases hc : c.url ∈ seen
    · simp only [dedupCandidates, if_pos hc]
      obtain ⟨hp, hs⟩ := ih seen
      refine ⟨?_, hs⟩
      refine List.Pairwise.imp_of_mem ?_ hp
      intro a b ha hb hlt
      have hane : c.url ≠ a := fun h => (hs a ha) (h ▸ hc)
      have hbne : c.url ≠ b := fun h => (hs b hb) (h ▸ hc)
      rw [List.map_cons, List.indexOf_cons_ne _ hane, List.indexOf_cons_ne _ hbne]
      exact Nat.succ_lt_succ hlt
    · simp only [dedupCandidates, if_neg hc, List.map_cons]
      obtain ⟨hp, hs⟩ := ih (c.url :: seen)
      constructor
      · refine List.Pairwise.cons ?_ ?_
        · intro b hb
          have hbne : c.url ≠ b := by
            intro h
            exact (hs b hb) (by simp [← h])
          rw [List.indexOf_cons_self, List.indexOf_cons_ne _ hbne]
          exact Nat.succ_pos _
        · refine List.Pairwise.imp_of_mem ?_ hp
          intro a b ha hb hlt
          have hane : c.url ≠ a := by
            intro h
            exact (hs a ha) (by simp [← h])
          have hbne : c.url ≠ b := by
            intro h
            exact (hs b hb) (by simp [← h])
          rw [List.indexOf_cons_ne _ hane, List.indexOf_cons_ne _ hbne]
          exact Nat.succ_lt_succ hlt
      · intro u hu
        rcases hu with _ | ⟨_, hu⟩
        · exact hc
        · have := hs u hu
          intro huseen
          exact this (List.mem_cons_of_mem _ huseen)

/-- The urls kept by de-duplication are pairwise distinct. -/
theorem dedupCandidates_urls_nodup (cands : List SearchCandidate) :
    ((dedupCandidates cands []).map SearchCandidate.url).Nodup := by
  have hp := (dedupCandidates_urls_ordered cands []).1
  refine List.Pairwise.imp ?_ hp
  intro a b hlt heq
  rw [heq] at hlt
  exact Nat.lt_irrefl _ hlt

/-- A token that signals while candidates remain cancels the loop: no
partial results are returned. -/
theorem scrapeCandidates_cancelled (env : SearchEnv) (m : Nat) :
    ∀ (cands : List SearchCandidate) (cp : Nat),
      0 < cands.length → m < cp + cands.length →
      (scrapeCandidates env (some ⟨some m⟩) cands cp).1 = none := by
  intro cands
  induction cands with
  | nil => intro cp h _; simp at h
  | cons c rest ih =>
    intro cp _ hm
    by_cases hcp : m ≤ cp
    · have hsig : CancelToken.isSignalled (some ⟨some m⟩) cp = true := by
        simp [CancelToken.isSignalled, hcp]
      simp [scrapeCandidates, hsig]
    · have hsig : CancelToken.isSignalled (some ⟨some m⟩) cp = false := by
        simp [CancelToken.isSignalled]; omega
      have hrest : 0 < rest.length := by
        simp at hm ⊢
        omega
      have hm' : m < (cp + 1) + rest.length := by
        simp at hm
        omega
      simp only [scrapeCandidates, hsig, Bool.false_eq_true, if_false, if_neg]
      cases hscr : env.scrape c.url with
      | none => simp [ih (cp + 1) hrest hm']
      | some pg => simp [ih (cp + 1) hrest hm']

/-!
Inversion of a successful `localSearch` call.
-/

/-- A successful `localSearch` call loaded the results page and ran the
scrape loop, uncancelled, on the de-duplicated and capped candidates. -/
theorem localSearch_success_inv (env : SearchEnv) (q : String) (k : Nat)
    (tok : Option CancelToken) (results : List SearchResultItem)
    (h : (localSearch env q k tok).1 = .success results) :
    ∃ cands, env.resultsPage q = some cands ∧
      (scrapeCandidates env tok ((dedupCandidates cands []).take k) 1).1
        = some results := by
  unfold localSearch at h
  by_cases hsig : CancelToken.isSignalled tok 0 = true
  · rw [if_pos hsig] at h
    simp at h
  · rw [if_neg hsig] at h
    cases hr : env.resultsPage q with
    | none =>
      rw [hr] at h
      simp at h
    | some cands =>
      rw [hr] at h
      dsimp only at h
      refine ⟨cands, rfl, ?_⟩
      cases hsc : scrapeCandidates env tok ((dedupCandidates cands []).take k) 1 with
      | mk r1 r2 =>
        rw [hsc] at h
        cases r1 with
        | none => simp at h
        | some items =>
          simp at h
          simp [h]

/-!
Claim theorems for the local search controller.
-/

/-- C1: for every candidate list harvested from the results page, the urls
in the returned result sequence are pairwise distinct and appear in the
same relative order as their first occurrences in the harvested candidate
list (de-duplication by url, first occurrence wins, order preserved). -/
theorem localSearch_result_urls_unique_first_occurrence_order (env : SearchEnv)
    (q : String) (k : Nat) (tok : Option CancelToken)
    (cands : List SearchCandidate) (results : List SearchResultItem)
    (hr : env.resultsPage q = some cands)
    (h : (localSearch env q k tok).1 = .success results) :
    (results.map SearchResultItem.url).Nodup ∧
      List.Pairwise (fun u v : String =>
        (cands.map SearchCandidate.url).indexOf u
          < (cands.map SearchCandidate.url).indexOf v)
        (results.map SearchResultItem.url) := by
  obtain ⟨cands', hr', hs⟩ := localSearch_success_inv env q k tok results h
  rw [hr] at hr'
  injection hr' with hcc
  subst hcc
  have hsub1 := scrapeCandidates_urls_sublist env tok _ 1 results hs
  have hsubd : (((dedupCandidates cands []).take k).map SearchCandidate.url).Sublist
      ((dedupCandidates cands []).map SearchCandidate.url) :=
    (List.take_sublist _ _).map _
  have hsub := hsub1.trans hsubd
  constructor
  · exact List.Nodup.sublist hsub (dedupCandidates_urls_nodup cands)
  · exact List.Pairwise.sublist hsub (dedupCandidates_urls_ordered cands []).1

/-- C1 witness: on the unit-test scenario the three returned urls are
distinct and ordered by first occurrence among the harvested candidates. -/
theorem localSearch_result_urls_unique_first_occurrence_order_witness :
    (([⟨"title", "url1", testHtml⟩, ⟨"title", "url2", testHtml⟩,
       ⟨"title", "url4", testHtml⟩] : List SearchResultItem).map
        SearchResultItem.url).Nodup ∧
      List.Pairwise (fun u v : String =>
        (testCandidates.map SearchCandidate.url).indexOf u
          < (testCandidates.map SearchCandidate.url).indexOf v)
        (([⟨"title", "url1", testHtml⟩, ⟨"title", "url2", testHtml⟩,
           ⟨"title", "url4", testHtml⟩] : List SearchResultItem).map
            SearchResultItem.url) :=
  localSearch_result_urls_unique_first_occurrence_order testEnv "witsy" 3 none
    testCandidates
    [⟨"title", "url1", testHtml⟩, ⟨"title", "url2", testHtml⟩,
     ⟨"title", "url4", testHtml⟩]
    rfl (by decide)

/-- C2: for every query and every `maxResults = k ≥ 1`, a successful search
returns at most `k` results. -/
theorem localSearch_result_count_le_maxResults (env : SearchEnv) (q : String)
    (k : Nat) (tok : Option CancelToken) (results : List SearchResultItem)
    (hk : 1 ≤ k)
    (h : (localSearch env q k tok).1 = .success results) :
    results.length ≤ k := by
  obtain ⟨cands, hr, hs⟩ := localSearch_success_inv env q k tok results h
  have h1 := scrapeCandidates_length_le env tok _ 1 results hs
  have h2 : ((dedupCandidates cands []).take k).length ≤ k := by
    simp [List.length_take]
  omega

/-- C2 witness: the unit-test scenario returns 3 ≤ 3 results. -/
theorem localSearch_result_count_le_maxResults_witness :
    ([⟨"title", "url1", testHtml⟩, ⟨"title", "url2", testHtml⟩,
      ⟨"title", "url4", testHtml⟩] : List SearchResultItem).length ≤ 3 :=
  localSearch_result_count_le_maxResults testEnv "witsy" 3 none
    [⟨"title", "url1", testHtml⟩, ⟨"title", "url2", testHtml⟩,
     ⟨"title", "url4", testHtml⟩]
    (by decide) (by decide)

/-- C3: every returned result carries the document title and body HTML
scraped from the candidate page itself (not the snippet title harvested
from the results page), and its url is one of the harvested candidates'
urls. -/
theorem localSearch_titles_from_scraped_pages (env : SearchEnv) (q : String)
    (k : Nat) (tok : Option CancelToken) (cands : List SearchCandidate)
    (results : List SearchResultItem)
    (hr : env.resultsPage q = some cands)
    (h : (localSearch env q k tok).1 = .success results) :
    ∀ r ∈ results, (∃ pg, env.scrape r.url = some pg ∧
        r.title = pg.title ∧ r.content = pg.html) ∧
      r.url ∈ cands.map SearchCandidate.url := by
  obtain ⟨cands', hr', hs⟩ := localSearch_success_inv env q k tok results h
  rw [hr] at hr'
  injection hr' with hcc
  subst hcc
  intro r hrm
  refine ⟨scrapeCandidates_item_scraped env tok _ 1 results hs r hrm, ?_⟩
  have hsub1 := scrapeCandidates_urls_sublist env tok _ 1 results hs
  have hsub2 : ((dedupCandidates cands []).take k).Sublist cands :=
    (List.take_sublist _ _).trans (dedupCandidates_sublist cands [])
  exact (hsub1.trans (hsub2.map SearchCandidate.url)).subset
    (List.mem_map_of_mem SearchResultItem.url hrm)

/-- C3 witness: in the unit-test scenario, where the snippet title of the
first candidate is `title1`, the returned item for `url1` carries the
scraped document title `title` instead. -/
theorem localSearch_titles_from_scraped_pages_witness :
    ((∃ pg, testEnv.scrape "url1" = some pg ∧
        "title" = pg.title ∧ testHtml = pg.html) ∧
      "url1" ∈ testCandidates.map SearchCandidate.url) :=
  localSearch_titles_from_scraped_pages testEnv "witsy" 3 none testCandidates
    [⟨"title", "url1", testHtml⟩, ⟨"title", "url2", testHtml⟩,
     ⟨"title", "url4", testHtml⟩]
    rfl (by decide) ⟨"title", "url1", testHtml⟩ (by decide)

/-- C4: with a token already signalled at call time, search fails
immediately with the cancellation outcome (message "Operation cancelled"):
no hidden surface is created and no navigation happens. -/
theorem localSearch_precancelled_rejects_immediately (env : SearchEnv)
    (q : String) (k : Nat) (tok : Option CancelToken)
    (h : CancelToken.isSignalled tok 0 = true) :
    localSearch env q k tok = (.cancelled, ⟨0, 0, 0⟩) ∧
      (localSearch env q k tok).1.message = some "Operation cancelled" := by
  unfold localSearch
  rw [if_pos h]
  exact ⟨rfl, rfl⟩

/-- C4 witness: an already-aborted token yields the cancellation outcome
with zero surfaces and zero navigations. -/
theorem localSearch_precancelled_rejects_immediately_witness :
    localSearch testEnv "witsy" 3 (some ⟨some 0⟩) = (.cancelled, ⟨0, 0, 0⟩) ∧
      (localSearch testEnv "witsy" 3 (some ⟨some 0⟩)).1.message
        = some "Operation cancelled" :=
  localSearch_precancelled_rejects_immediately testEnv "witsy" 3
    (some ⟨some 0⟩) (by decide)

/-- C5: a token signalled after the results page loads but while surviving
candidates remain to be scraped resolves the whole search as cancelled —
no partial result set is returned. -/
theorem localSearch_midflight_cancellation_no_partial (env : SearchEnv)
    (q : String) (k m : Nat) (cands : List SearchCandidate)
    (hr : env.resultsPage q = some cands)
    (hm1 : 1 ≤ m)
    (hm2 : m ≤ ((dedupCandidates cands []).take k).length) :
    (localSearch env q k (some ⟨some m⟩)).1 = .cancelled := by
  have h0 : ¬CancelToken.isSignalled (some ⟨some m⟩) 0 = true := by
    simp [CancelToken.isSignalled]
    omega
  unfold localSearch
  rw [if_neg h0, hr]
  dsimp only
  have hc := scrapeCandidates_cancelled env m ((dedupCandidates cands []).take k)
    1 (by omega) (by omega)
  cases hsc : scrapeCandidates env (some ⟨some m⟩)
      ((dedupCandidates cands []).take k) 1 with
  | mk r1 r2 =>
    rw [hsc] at hc
    cases r1 with
    | none => rfl
    | some items => simp at hc

/-- C5 witness: in the unit-test scenario a token signalling after the
first candidate scrape cancels the whole search. -/
theorem localSearch_midflight_cancellation_no_partial_witness :
    (localSearch testEnv "witsy" 3 (some ⟨some 2⟩)).1 = .cancelled :=
  localSearch_midflight_cancellation_no_partial testEnv "witsy" 3 2
    testCandidates rfl (by decide) (by decide)

/-- C6: with a token that never signals, a Phase A failure (results page
load/extraction) is fatal to the whole call, while Phase B per-candidate
failures are skipped: the success outcome contains exactly the remaining
successfully scraped candidates in original order, with no exception
propagated. -/
theorem localSearch_phaseA_fatal_phaseB_skips (env : SearchEnv) (q : String)
    (k : Nat) (tok : Option CancelToken)
    (hnc : ∀ cp, CancelToken.isSignalled tok cp = false) :
    ((env.resultsPage q = none →
        (localSearch env q k tok).1
          = .failed "results page load or extraction failed") ∧
      (∀ cands, env.resultsPage q = some cands →
        (localSearch env q k tok).1 = .success
          (((dedupCandidates cands []).take k).filterMap (fun c =>
            (env.scrape c.url).map
              (fun pg => ⟨pg.title, c.url, pg.html⟩))))) := by
  have h0 : ¬CancelToken.isSignalled tok 0 = true := by simp [hnc 0]
  constructor
  · intro hr
    unfold localSearch
    rw [if_neg h0, hr]
  · intro cands hr
    unfold localSearch
    rw [if_neg h0, hr]
    dsimp only
    rw [scrapeCandidates_no_cancel env tok hnc _ 1]

/-- C6 witness: a failing results page yields the fatal failure outcome,
while a failing candidate page (`url2`) is skipped and the remaining
candidates are returned in order. -/
theorem localSearch_phaseA_fatal_phaseB_skips_witness :
    ((localSearch testEnvNoPage "witsy" 3 none).1
        = .failed "results page load or extraction failed") ∧
      (localSearch testEnvPartial "witsy" 3 none).1 =
        .success [⟨"title", "url1", testHtml⟩, ⟨"title", "url4", testHtml⟩] := by
  constructor
  · exact (localSearch_phaseA_fatal_phaseB_skips testEnvNoPage "witsy" 3 none
      (fun _ => rfl)).1 rfl
  · have h := (localSearch_phaseA_fatal_phaseB_skips testEnvPartial "witsy" 3 none
      (fun _ => rfl)).2 testCandidates rfl
    rw [h]
    decide

/-- C7: on every exit path the hidden surface is destroyed exactly as many
times as it was created, and at most one surface is ever created per call
(none when the pre-check cancels, exactly one otherwise). -/
theorem localSearch_surface_released_exactly_once (env : SearchEnv)
    (q : String) (k : Nat) (tok : Option CancelToken) :
    (localSearch env q k tok).2.surfacesDestroyed
        = (localSearch env q k tok).2.surfacesCreated ∧
      (localSearch env q k tok).2.surfacesCreated ≤ 1 := by
  unfold localSearch
  by_cases hsig : CancelToken.isSignalled tok 0 = true
  · rw [if_pos hsig]
    exact ⟨rfl, Nat.zero_le 1⟩
  · rw [if_neg hsig]
    cases env.resultsPage q with
    | none => exact ⟨rfl, Nat.le_refl 1⟩
    | some cands =>
      dsimp only
      cases scrapeCandidates env tok ((dedupCandidates cands []).take k) 1 with
      | mk r1 r2 =>
        cases r1 with
        | none => exact ⟨rfl, Nat.le_refl 1⟩
        | some items => exact ⟨rfl, Nat.le_refl 1⟩

/-- C8: when the results page loads and extraction succeeds but yields zero
unique candidates, search returns the success outcome with an empty result
sequence. -/
theorem localSearch_zero_unique_candidates_success_empty (env : SearchEnv)
    (q : String) (k : Nat) (tok : Option CancelToken)
    (cands : List SearchCandidate)
    (h0 : CancelToken.isSignalled tok 0 = false)
    (hr : env.resultsPage q = some cands)
    (hz : dedupCandidates cands [] = []) :
    (localSearch env q k tok).1 = .success [] := by
  unfold localSearch
  rw [if_neg (by simp [h0]), hr]
  dsimp only
  rw [hz]
  simp [scrapeCandidates]

/-- C8 witness: an empty candidate harvest yields `Success` with no
results, not an error. -/
theorem localSearch_zero_unique_candidates_success_empty_witness :
    (localSearch testEnvEmpty "witsy" 3 none).1 = .success [] :=
  localSearch_zero_unique_candidates_success_empty testEnvEmpty "witsy" 3
    none [] rfl rfl rfl

/-!
Claim theorems for the plugin (`src/plugins/search.ts`).
-/

/-- A string has positive length exactly when it is not the empty string. -/
theorem string_length_pos_iff (s : String) : 0 < s.length ↔ s ≠ "" := by
  obtain ⟨l⟩ := s
  cases l <;> simp [String.length, String.ext_iff]

/-- The `key?.trim().length > 0` check is truthy exactly when the key is
present and non-empty after trimming whitespace. -/
theorem apiKeyTruthy_iff (k : Option String) :
    apiKeyTruthy k = true ↔ ∃ s, k = some s ∧ jsTrim s ≠ "" := by
  cases k with
  | none => simp [apiKeyTruthy]
  | some s => simp [apiKeyTruthy, string_length_pos_iff]

/-- C10: `isEnabled` returns true iff the config is enabled and either the
engine is `local` (no API key needed), or the engine is one of `brave`,
`exa`, `perplexity`, `tavily` and the corresponding API key is present and
non-empty after trimming whitespace; any other engine yields false. -/
theorem isEnabled_true_iff (c : SearchConfig) :
    isEnabled (some c) = true ↔
      (c.enabled = true ∧
        (c.engine = "local" ∨
         (c.engine = "brave" ∧ ∃ s, c.braveApiKey = some s ∧ jsTrim s ≠ "") ∨
         (c.engine = "exa" ∧ ∃ s, c.exaApiKey = some s ∧ jsTrim s ≠ "") ∨
         (c.engine = "perplexity" ∧
           ∃ s, c.perplexityApiKey = some s ∧ jsTrim s ≠ "") ∨
         (c.engine = "tavily" ∧
           ∃ s, c.tavilyApiKey = some s ∧ jsTrim s ≠ ""))) := by
  simp only [isEnabled, Bool.and_eq_true, Bool.or_eq_true, beq_iff_eq,
    apiKeyTruthy_iff, or_assoc]

/-- C10 witness: a config enabled for `brave` with a key that trims to a
non-empty string is enabled. -/
theorem isEnabled_true_iff_witness :
    isEnabled (some ⟨true, "brave", some " k ", none, none, none, none, none⟩)
      = true :=
  (isEnabled_true_iff ⟨true, "brave", some " k ", none, none, none, none, none⟩).mpr
    ⟨rfl, Or.inr (Or.inl ⟨rfl, " k ", rfl, by decide⟩)⟩

/-- C9: for a non-error engine response, the `execute` post-processing
preserves `query` and `error`; with `titlesOnly` true the `content` field
is removed from every result while `title` and `url` are unchanged; with
`titlesOnly` false only `content` changes — truncated by `truncateContent`
(and unchanged whenever `config.contentLength` is unset) — and every other
field is unchanged. -/
theorem executePostProcess_frame (titlesOnly : Bool) (config : SearchConfig)
    (resp : ExecResponse) (rs : List ExecResultItem)
    (he : errorTruthy resp.error = false)
    (hr : resp.results = some rs) :
    (executePostProcess titlesOnly config resp).query = resp.query ∧
    (executePostProcess titlesOnly config resp).error = resp.error ∧
    ∃ rs', (executePostProcess titlesOnly config resp).results = some rs' ∧
      List.Forall₂ (fun r r' : ExecResultItem =>
        r'.title = r.title ∧ r'.url = r.url ∧
        (titlesOnly = true → r'.content = none) ∧
        (titlesOnly = false →
          r'.content = r.content.map (truncateContent config) ∧
          (config.contentLength = none → r'.content = r.content))) rs rs' := by
  have hcond : (errorTruthy resp.error || resp.results.isNone) = false := by
    simp [he, hr]
  unfold executePostProcess
  rw [hcond]
  rw [if_neg Bool.false_ne_true]
  refine ⟨rfl, rfl, ?_⟩
  dsimp only
  rw [hr]
  refine ⟨rs.map (processResult titlesOnly config), rfl, ?_⟩
  rw [List.forall₂_map_right_iff]
  rw [List.forall₂_same]
  intro x _
  cases titlesOnly with
  | true =>
    refine ⟨rfl, rfl, fun _ => rfl, fun habs => ?_⟩
    cases habs
  | false =>
    refine ⟨rfl, rfl, fun habs => ?_, fun _ => ⟨rfl, fun hcl => ?_⟩⟩
    · cases habs
    · cases hx : x.content with
      | none => simp [processResult, hx]
      | some s => simp [processResult, hx, truncateContent, hcl]

/-- C9 witness: a one-result response keeps `query`/`error` and has its
content truncated to 3 characters when `titlesOnly` is false and
`contentLength = 3`. -/
theorem executePostProcess_frame_witness :
    (executePostProcess false ⟨true, "local", none, none, none, none, some 3, none⟩
        ⟨some "q", some [⟨"t", "u", some "hello"⟩], none⟩).query = some "q" ∧
    (executePostProcess false ⟨true, "local", none, none, none, none, some 3, none⟩
        ⟨some "q", some [⟨"t", "u", some "hello"⟩], none⟩).error = none ∧
    ∃ rs', (executePostProcess false
        ⟨true, "local", none, none, none, none, some 3, none⟩
        ⟨some "q", some [⟨"t", "u", some "hello"⟩], none⟩).results = some rs' ∧
      List.Forall₂ (fun r r' : ExecResultItem =>
        r'.title = r.title ∧ r'.url = r.url ∧
        (false = true → r'.content = none) ∧
        (false = false →
          r'.content = r.content.map
            (truncateContent ⟨true, "local", none, none, none, none, some 3, none⟩) ∧
          ((⟨true, "local", none, none, none, none, some 3, none⟩ :
              SearchConfig).contentLength = none → r'.content = r.content)))
        [⟨"t", "u", some "hello"⟩] rs' :=
  executePostProcess_frame false ⟨true, "local", none, none, none, none, some 3, none⟩
    ⟨some "q", some [⟨"t", "u", some "hello"⟩], none⟩
    [⟨"t", "u", some "hello"⟩] rfl rfl
